import Mathlib

/-!
Verification of the SCP EMA parser (scp_ema/parser/scp_ema_parser.py).

The development shallowly embeds the transformation core of the parser:
values appearing in pandas DataFrame cells become the inductive type
PyVal, DataFrames become the structure DF (an ordered column list plus
rows of associated cells), and fallible pandas operations return
Except PyErr.  Each embedded function mirrors one Python function of the
source, keeping its name.
-/

set_option maxRecDepth 4000

/-- Python exception kinds that the embedded code can raise. -/
inductive PyErr where
  | valueError
  | keyError
  | indexError
  | attributeError
  | typeError
  deriving DecidableEq, Repr

/-- Values stored in DataFrame cells and JSON records.  Data maps and
answer-value lists in this data set carry string payloads. -/
inductive PyVal where
  | str (s : String)
  | int (n : Int)
  | bool (b : Bool)
  | none
  | nan
  | listV (xs : List String)
  | dict (kvs : List (String × String))
  deriving DecidableEq, Repr

deriving instance DecidableEq for Except

/-- A row is an ordered association list from column names to cells. -/
abbrev Row := List (String × PyVal)

/-- A DataFrame: ordered column names and rows of cells. -/
structure DF where
  cols : List String
  rows : List Row
  deriving DecidableEq, Repr

/-- Cell lookup inside a row. -/
def rowGet (r : Row) (c : String) : Option PyVal :=
  (r.find? (fun p => p.1 == c)).map (fun p => p.2)

/-- Set a cell in a row, appending the column at the end when absent. -/
def rowSet (r : Row) (c : String) (v : PyVal) : Row :=
  if r.any (fun p => p.1 == c) then
    r.map (fun p => if p.1 == c then (c, v) else p)
  else r ++ [(c, v)]

/-- Number of rows of a frame. -/
def DF.nrows (df : DF) : Nat := df.rows.length

/-- First-occurrence deduplication of a list of strings. -/
def dedupStrs (l : List String) : List String :=
  l.foldl (fun acc x => if acc.contains x then acc else acc ++ [x]) []

/-- pd.DataFrame(list-of-records): columns are the first-occurrence union
of the record keys; missing keys become NaN cells. -/
def dfFromRecords (recs : List (List (String × PyVal))) : DF :=
  let cols := dedupStrs ((recs.map (fun r => r.map (fun p => p.1))).flatten)
  ⟨cols, recs.map (fun r =>
    cols.map (fun c => (c, ((r.find? (fun p => p.1 == c)).map (fun p => p.2)).getD PyVal.nan)))⟩

/-- Column read, raising KeyError when the column is absent
(pandas DF[c] on a missing label). -/
def DF.getColE (df : DF) (c : String) : Except PyErr (List PyVal) :=
  if df.cols.contains c then
    Except.ok (df.rows.map (fun r => (rowGet r c).getD PyVal.nan))
  else Except.error PyErr.keyError

/-- Overwrite or append a column from a value list of matching length
(used where the length is equal by construction). -/
def DF.withCol (df : DF) (c : String) (vs : List PyVal) : DF :=
  ⟨if df.cols.contains c then df.cols else df.cols ++ [c],
   df.rows.zipWith (fun r v => rowSet r c v) vs⟩

/-- pandas DF[c] = list assignment: ValueError unless the list length
matches the number of rows. -/
def DF.setColList (df : DF) (c : String) (vs : List PyVal) : Except PyErr DF :=
  if vs.length == df.nrows then Except.ok (df.withCol c vs)
  else Except.error PyErr.valueError

/-- pandas DF[c] = scalar assignment (broadcast). -/
def DF.setColScalar (df : DF) (c : String) (v : PyVal) : DF :=
  df.withCol c (df.rows.map (fun _ => v))

/-- pandas DF.loc[ix, c] = v: creates the column (NaN-filled) when
absent, then updates row ix. -/
def DF.locSet (df : DF) (ix : Nat) (c : String) (v : PyVal) : DF :=
  let df1 : DF :=
    if df.cols.contains c then df
    else ⟨df.cols ++ [c], df.rows.map (fun r => rowSet r c PyVal.nan)⟩
  ⟨df1.cols, df1.rows.enum.map (fun p => if p.1 == ix then rowSet p.2 c v else p.2)⟩

/-- pandas DF.loc[:, cs] projection; KeyError when a label is absent. -/
def DF.selectCols (df : DF) (cs : List String) : Except PyErr DF :=
  if cs.all (fun c => df.cols.contains c) then
    Except.ok ⟨cs, df.rows.map (fun r => cs.map (fun c => (c, (rowGet r c).getD PyVal.nan)))⟩
  else Except.error PyErr.keyError

/-- pandas DF.drop(columns=cs); KeyError when a label is absent. -/
def DF.dropCols (df : DF) (cs : List String) : Except PyErr DF :=
  if cs.all (fun c => df.cols.contains c) then
    Except.ok ⟨df.cols.filter (fun c => !(cs.contains c)),
               df.rows.map (fun r => r.filter (fun p => !(cs.contains p.1)))⟩
  else Except.error PyErr.keyError

/-- Keep the first row for each value of column c (helper of
drop_duplicates). -/
def dedupRowsBy (c : String) : List Row → List PyVal → List Row
  | [], _ => []
  | r :: rest, seen =>
      let v := (rowGet r c).getD PyVal.nan
      if seen.contains v then dedupRowsBy c rest seen
      else r :: dedupRowsBy c rest (v :: seen)

/-- pandas drop_duplicates(subset=c, keep=first); KeyError when c is
absent. -/
def DF.dropDupsByCol (df : DF) (c : String) : Except PyErr DF :=
  if df.cols.contains c then Except.ok ⟨df.cols, dedupRowsBy c df.rows []⟩
  else Except.error PyErr.keyError

/-- pandas groupby(g).cumcount() written to column c: each row gets the
number of earlier rows with the same g-cell. -/
def DF.addCumcount (df : DF) (g : String) (c : String) : Except PyErr DF :=
  if df.cols.contains g then
    Except.ok ⟨if df.cols.contains c then df.cols else df.cols ++ [c],
      df.rows.enum.map (fun p =>
        rowSet p.2 c (PyVal.int ((df.rows.take p.1).countP
          (fun r2 => (rowGet r2 g).getD PyVal.nan == (rowGet p.2 g).getD PyVal.nan))))⟩
  else Except.error PyErr.keyError

/-- Rename one column label. -/
def DF.renameCol (df : DF) (a b : String) : DF :=
  ⟨df.cols.map (fun c => if c == a then b else c),
   df.rows.map (fun r => r.map (fun p => if p.1 == a then (b, p.2) else p))⟩

/-- First-occurrence deduplication of cell values. -/
def dedupVals (l : List PyVal) : List PyVal :=
  l.foldl (fun acc x => if acc.contains x then acc else acc ++ [x]) []

/-- Duplicate test on (index, column) cell pairs, the condition under
which pandas pivot raises ValueError. -/
def hasDupPairs : List (PyVal × PyVal) → Bool
  | [] => false
  | p :: rest => rest.contains p || hasDupPairs rest

/-- The (index, column) pairs a pivot of df would use. -/
def DF.pivotPairs (df : DF) (idx colc : String) : List (PyVal × PyVal) :=
  df.rows.map (fun r => ((rowGet r idx).getD PyVal.nan, (rowGet r colc).getD PyVal.nan))

/-- Column label arising from a cell used as a pivot column value. -/
def asColName : PyVal → String
  | PyVal.str s => s
  | PyVal.int n => toString n
  | _ => ""

/-- pandas pivot(index, columns, values).reset_index(): KeyError on a
missing label, ValueError on duplicate (index, column) pairs, otherwise
one row per index value and one column per column value. -/
def DF.pivot (df : DF) (idx colc valc : String) : Except PyErr DF :=
  if df.cols.contains idx && df.cols.contains colc && df.cols.contains valc then
    if hasDupPairs (df.pivotPairs idx colc) then Except.error PyErr.valueError
    else
      let triples := df.rows.map (fun r =>
        ((rowGet r idx).getD PyVal.nan, (rowGet r colc).getD PyVal.nan,
         (rowGet r valc).getD PyVal.nan))
      let ivals := dedupVals (triples.map (fun t => t.1))
      let cvals := dedupVals (triples.map (fun t => t.2.1))
      Except.ok ⟨idx :: cvals.map asColName,
        ivals.map (fun iv => (idx, iv) :: cvals.map (fun cv =>
          (asColName cv,
           ((triples.find? (fun t => t.1 == iv && t.2.1 == cv)).map (fun t => t.2.2)).getD
             PyVal.nan)))⟩
  else Except.error PyErr.keyError

/-- pandas merge(right, on=key), inner join; overlapping non-key labels
get the suffixes _x and _y; KeyError when the key is missing on either
side. -/
def DF.merge (l r : DF) (key : String) : Except PyErr DF :=
  if l.cols.contains key && r.cols.contains key then
    let ov := l.cols.filter (fun c => (c != key) && r.cols.contains c)
    let renL := fun c => if ov.contains c then c ++ "_x" else c
    let renR := fun c => if ov.contains c then c ++ "_y" else c
    Except.ok ⟨l.cols.map renL ++ (r.cols.filter (fun c => c != key)).map renR,
      (l.rows.map (fun lr =>
        (r.rows.filter (fun rr => rowGet rr key == rowGet lr key)).map (fun rr =>
          lr.map (fun p => (renL p.1, p.2)) ++
          (rr.filter (fun p => p.1 != key)).map (fun p => (renR p.1, p.2))))).flatten⟩
  else Except.error PyErr.keyError

/-- pandas concat: ValueError on the empty list, otherwise the row-wise
union with outer column alignment (missing cells become NaN). -/
def concat2 (a b : DF) : DF :=
  let cols := a.cols ++ b.cols.filter (fun c => !(a.cols.contains c))
  ⟨cols, (a.rows ++ b.rows).map (fun r =>
    cols.map (fun c => (c, (rowGet r c).getD PyVal.nan)))⟩

def pdConcat (dfs : List DF) : Except PyErr DF :=
  match dfs with
  | [] => Except.error PyErr.valueError
  | d :: rest => Except.ok (rest.foldl concat2 d)

/-! ## Python string primitives used by the parser -/

/-- Python str.split(sep) for a one-character separator. -/
def splitChar (sep : Char) : List Char → List (List Char)
  | [] => [[]]
  | c :: rest =>
      if c = sep then [] :: splitChar sep rest
      else
        match splitChar sep rest with
        | s :: ss => (c :: s) :: ss
        | [] => [[c]]

/-- Fuelled worker for multi-character str.split(sep). -/
def splitSeqFuel (sep : List Char) : Nat → List Char → List (List Char)
  | _, [] => [[]]
  | 0, l => [l]
  | fuel + 1, c :: rest =>
      if sep.isPrefixOf (c :: rest) then
        [] :: splitSeqFuel sep fuel ((c :: rest).drop sep.length)
      else
        match splitSeqFuel sep fuel rest with
        | s :: ss => (c :: s) :: ss
        | [] => [[c]]

/-- Python str.split(sep) for a nonempty separator. -/
def splitSeq (sep : List Char) (l : List Char) : List (List Char) :=
  splitSeqFuel sep l.length l

/-- Python whitespace test for str.strip(). -/
def isPySpace (c : Char) : Bool :=
  c == ' ' || c == '\t' || c == '\n' || c == '\r' || c == '\x0b' || c == '\x0c'

/-- Python str.strip(). -/
def pyStrip (l : List Char) : List Char :=
  ((l.dropWhile isPySpace).reverse.dropWhile isPySpace).reverse

/-- Python str.replace(a, b) for one-character patterns. -/
def replaceChar (a b : Char) (l : List Char) : List Char :=
  l.map (fun c => if c = a then b else c)

/-- Python str.replace(a, two-character deletion target empty). -/
def removeChar (a : Char) (l : List Char) : List Char :=
  l.filter (fun c => c != a)

/-- Python substring containment, the operator sub in x. -/
def isSubstrOf : List Char → List Char → Bool
  | p, [] => p.isEmpty
  | p, c :: rest => p.isPrefixOf (c :: rest) || isSubstrOf p rest

/-- A single quote character as a string (avoids quote-heavy literals). -/
def squote : String := String.singleton '\''

/-- Python repr of a string, as rendered inside str(list). -/
def pyReprStr (s : String) : String := squote ++ s ++ squote

/-- Python str(x) for the embedded values. -/
def pyStr : PyVal → String
  | PyVal.str s => s
  | PyVal.int n => toString n
  | PyVal.bool b => if b then "True" else "False"
  | PyVal.none => "None"
  | PyVal.nan => "nan"
  | PyVal.listV xs => "[" ++ String.intercalate ", " (xs.map pyReprStr) ++ "]"
  | PyVal.dict kvs =>
      String.singleton '\x7b' ++
      String.intercalate ", " (kvs.map (fun p => pyReprStr p.1 ++ ": " ++ pyReprStr p.2)) ++
      String.singleton '\x7d'

/-- Python truthiness of the embedded values. -/
def pyTruthy : PyVal → Bool
  | PyVal.str s => !(s == "")
  | PyVal.int n => !(n == 0)
  | PyVal.bool b => b
  | PyVal.none => false
  | PyVal.nan => true
  | PyVal.listV xs => !xs.isEmpty
  | PyVal.dict kvs => !kvs.isEmpty

/-- Values on which np.isnan returns instead of raising TypeError. -/
def npIsNumeric : PyVal → Bool
  | PyVal.int _ => true
  | PyVal.bool _ => true
  | PyVal.nan => true
  | _ => false

/-! ## The parser functions (EMA_Parser methods) -/

/-- First conditional of cleanup_values: strip one leading square
bracket when present (the indexing that guards it is handled by the
caller, which raises on the empty string). -/
def strip1 : List Char → List Char
  | [] => []
  | c :: t => if c = '[' then t else c :: t

/-- Second conditional of cleanup_values: after strip1, strip one
trailing square bracket when present. -/
def strip2 (l : List Char) : List Char :=
  if (strip1 l).getLast? = some ']' then (strip1 l).dropLast else strip1 l

/-- Third conditional pair of cleanup_values: strip one leading single
or double quote when present. -/
def stripq : List Char → List Char
  | [] => []
  | c :: t => if c = '\'' then t else if c = '"' then t else c :: t

/-- The state of the cleanup string after the leading-quote strip. -/
def strip3 (l : List Char) : List Char := stripq (strip2 l)

/-- Body of cleanup_values on the stringified input.  Each of the four
conditionals indexes the first or last character of the current string,
raising IndexError exactly when that string has emptied; otherwise it
strips one leading bracket, one trailing bracket, one leading quote and
one trailing quote in sequence. -/
def cleanupChars (t0 : List Char) : Except PyErr (List Char) :=
  if t0 = [] then Except.error PyErr.indexError
  else if strip1 t0 = [] then Except.error PyErr.indexError
  else if strip2 t0 = [] then Except.error PyErr.indexError
  else if strip3 t0 = [] then Except.error PyErr.indexError
  else Except.ok
    (if (strip3 t0).getLast? = some '\'' then (strip3 t0).dropLast
     else if (strip3 t0).getLast? = some '"' then (strip3 t0).dropLast
     else strip3 t0)

/-- EMA_Parser.cleanup_values. -/
def cleanup_values (x : PyVal) : Except PyErr PyVal :=
  match cleanupChars (pyStr x).data with
  | Except.ok cs => Except.ok (PyVal.str (String.mk cs))
  | Except.error e => Except.error e

/-- Key split on the dash separator, KEY.split(dash). -/
def keySegs (key : String) : List (List Char) := splitChar '-' key.data

/-- KEY.split(dash)[0], the username. -/
def usernameOfKey (key : String) : String := String.mk ((keySegs key).headD [])

/-- The empty-string join of KEY.split(dash)[1:], the login-node value. -/
def loginNodeOfKey (key : String) : String := String.mk ((keySegs key).tail.flatten)

/-- KEY.split(dash)[-1], the login time used by the device extractor. -/
def lastSegOfKey (key : String) : String := String.mk ((keySegs key).getLastD [])

/-- EMA_Parser.sanity_check on the list of store keys: collect the first
key segments, then for each such id gather every key CONTAINING it as a
substring, and report ids with more than one gathered key. -/
def sanity_check (keys : List String) : List (String × Nat × List String) :=
  (dedupStrs (keys.map usernameOfKey)).filterMap (fun sub =>
    let instances := keys.filter (fun x => isSubstrOf sub.data x.data)
    if instances.length > 1 then some (sub, instances.length, instances) else Option.none)

/-- A subject record: the pings and answers JSON arrays (as raw records)
and the user block with username and installation device and app maps. -/
structure UserRecord where
  username : String
  device : List (String × PyVal)
  app : List (String × PyVal)
  deriving DecidableEq, Repr

structure SubjectRecord where
  pings : List (List (String × PyVal))
  answers : List (List (String × PyVal))
  user : UserRecord
  deriving DecidableEq, Repr

/-- EMA_Parser.derive_pings: frame the pings, add username and
login-node from the key, and project the eight fixed columns. -/
def derive_pings (subset : SubjectRecord) (key : String) : Except PyErr DF :=
  let pings := dfFromRecords subset.pings
  let pings := pings.setColScalar "username" (PyVal.str (usernameOfKey key))
  let pings := pings.setColScalar "login-node" (PyVal.str (loginNodeOfKey key))
  pings.selectCols ["username", "login-node", "streamName", "startTime",
                    "notificationTime", "endTime", "id", "tzOffset"]

/-- isolate_values (local to derive_answers): PNA sentinel when
preferNotToAnswer is truthy, else the data map values, else None; a
missing preferNotToAnswer label raises out of the row lambda. -/
def isolate_values (r : Row) : Except PyErr PyVal :=
  match rowGet r "preferNotToAnswer" with
  | Option.none => Except.error PyErr.keyError
  | some pna =>
      if pyTruthy pna then Except.ok (PyVal.str "PNA")
      else
        match rowGet r "data" with
        | some (PyVal.dict kvs) => Except.ok (PyVal.listV (kvs.map (fun p => p.2)))
        | _ => Except.ok PyVal.none

/-- EMA_Parser.derive_answers up to (and excluding) the pivot: value
isolation and cleanup (each with its failure caught and logged, leaving
the frame unchanged), dedup by date, per-question cumcount, and the
projection dropping data and preferNotToAnswer. -/
def derive_answers_pre (subset : SubjectRecord) : Except PyErr DF := do
  let answers0 := dfFromRecords subset.answers
  let answers1 :=
    match answers0.rows.mapM isolate_values with
    | Except.ok vals => answers0.withCol "value" vals
    | Except.error _ => answers0
  let answers2 :=
    match answers1.getColE "value" with
    | Except.ok col =>
        match col.mapM cleanup_values with
        | Except.ok vals => answers1.withCol "value" vals
        | Except.error _ => answers1
    | Except.error _ => answers1
  let answers3 ← answers2.dropDupsByCol "date"
  let answers4 ← answers3.addCumcount "questionId" "IX"
  answers4.dropCols ["data", "preferNotToAnswer"]

/-- EMA_Parser.derive_answers: the pre-processing, the long-to-wide
pivot on (pingId, questionId, value), and the rename of pingId to id. -/
def derive_answers (subset : SubjectRecord) : Except PyErr DF := do
  let a ← derive_answers_pre subset
  let p ← a.pivot "pingId" "questionId" "value"
  pure (p.renameCol "pingId" "id")

/-- isolate_race_value (local to parse_race): strip quotes, split into
category groups, keep groups whose text contains True, and return the
bracket-stripped labels; None when the cell is not a string. -/
def isolate_race_value (x : PyVal) : PyVal :=
  match x with
  | PyVal.str s =>
      let temp := removeChar '\'' (removeChar '"' s.data)
      let groups := splitSeq [']', ','] temp
      let raceVals := (groups.filter (fun k => isSubstrOf ['T', 'r', 'u', 'e'] k)).map
        (fun k => (splitChar ',' k).headD [])
      let raceVals := raceVals.map (fun k => removeChar ']' (removeChar '[' (pyStrip k)))
      PyVal.listV (raceVals.map String.mk)
  | _ => PyVal.none

/-- EMA_Parser.parse_race: map isolate_race_value over the Race column
when present; otherwise assign the empty list to the Race column (the
Python expression list-times-len, which is the empty list).  A raised
error carries the frame as mutated so far (here: unmutated). -/
def parse_race (df : DF) : Except (DF × PyErr) DF :=
  match df.getColE "Race" with
  | Except.ok col => Except.ok (df.withCol "Race" (col.map isolate_race_value))
  | Except.error _ =>
      match df.setColList "Race" [] with
      | Except.ok d => Except.ok d
      | Except.error e => Except.error (df, e)

/-- The four nomination parent columns, in iteration order. -/
def nomParents : List String := ["SU_Nom", "SU_Nom_None_Nom", "NSU_Rel", "NSU_Nom_None_Nom"]

/-- The child-column naming templates of parse_nominations. -/
def nomFmt (parent : String) (k : Nat) : String :=
  if parent == "SU_Nom" then "SU_Nom_" ++ toString k
  else if parent == "SU_Nom_None_Nom" then "SU_Nom_None_Nom_" ++ toString k
  else if parent == "NSU_Rel" then "NSU" ++ toString k ++ "_Rel"
  else "NSU" ++ toString k ++ "_None_Rel"

/-- One row of the first parse_nominations pass.  Numeric values (where
np.isnan returns) are skipped unconditionally, as are None and PNA.
Otherwise the value is split on quote-comma; the dedented index loop
leaves new_var at slot (number of chunks) and k at its predecessor, so
only the LAST chunk is written, to that slot, brackets stripped. -/
def nomRowStep (parent : String) (d : DF) (p : Nat × PyVal) : Except (DF × PyErr) DF :=
  if npIsNumeric p.2 then Except.ok d
  else if pyStr p.2 == "None" then Except.ok d
  else if p.2 == PyVal.str "PNA" then Except.ok d
  else
    match p.2 with
    | PyVal.str s =>
        let parts := splitSeq ['\'', ','] (replaceChar '"' '\'' s.data)
        let newVar := nomFmt parent parts.length
        let newVal := pyStrip (removeChar ']' (removeChar '[' (parts.getLastD [])))
        Except.ok (d.locSet p.1 newVar (PyVal.str (String.mk newVal)))
    | _ => Except.error (d, PyErr.attributeError)

/-- First parse_nominations pass for one parent: on an absent parent,
assign the empty list to it (list-times-len is the empty list) and skip;
otherwise create the three child columns and walk the parent column. -/
def nomParentPass (d : DF) (parent : String) : Except (DF × PyErr) DF :=
  if !(d.cols.contains parent) then
    match d.setColList parent [] with
    | Except.ok d2 => Except.ok d2
    | Except.error e => Except.error (d, e)
  else
    let d1 := [1, 2, 3].foldl (fun dd k => dd.setColScalar (nomFmt parent k) (PyVal.str "")) d
    match d1.getColE parent with
    | Except.ok col => col.enum.foldlM (nomRowStep parent) d1
    | Except.error e => Except.error (d1, e)

/-- Second parse_nominations pass over one child column: read it
(KeyError when it was never created) and re-apply cleanup_values. -/
def nomCleanupStep (d : DF) (colName : String) : Except (DF × PyErr) DF :=
  match d.getColE colName with
  | Except.error e => Except.error (d, e)
  | Except.ok col =>
      match col.mapM cleanup_values with
      | Except.ok vals => Except.ok (d.withCol colName vals)
      | Except.error e => Except.error (d, e)

/-- EMA_Parser.parse_nominations: the per-parent pass, then the cleanup
pass over all twelve child columns. -/
def parse_nominations (df : DF) : Except (DF × PyErr) DF := do
  let d1 ← nomParents.foldlM nomParentPass df
  ((nomParents.map (fun p => [1, 2, 3].map (nomFmt p))).flatten).foldlM nomCleanupStep d1

/-- EMA_Parser.parse_device_info: a username-only base row, then the
flattened device map and the flattened app map (each tagged with
username and login_time) merged on username in sequence. -/
def parse_device_info (subset : SubjectRecord) (key : String) : Except PyErr DF := do
  let username := subset.user.username
  let login_time := lastSegOfKey key
  let master : DF := ⟨["username"], [[("username", PyVal.str username)]]⟩
  let tempDev := ((dfFromRecords [subset.user.device]).setColScalar "username"
      (PyVal.str username)).setColScalar "login_time" (PyVal.str login_time)
  let master2 ← master.merge tempDev "username"
  let tempApp := ((dfFromRecords [subset.user.app]).setColScalar "username"
      (PyVal.str username)).setColScalar "login_time" (PyVal.str login_time)
  master2.merge tempApp "username"

/-- EMA_Parser.output: the inner join of pings and answers on id (the
optional CSV write is file I/O, outside the model). -/
def output (_key : String) (PINGS ANSWERS : DF) : Except PyErr DF :=
  PINGS.merge ANSWERS "id"

/-- EMA_Parser.parse_responses.  A derive_answers failure is logged but
leaves the local variable unbound, so the final output call raises
NameError: the net effect is failure of the whole call, modeled by
propagating the error.  parse_race and parse_nominations failures are
caught; the frame keeps the mutations made before the raise (carried in
their error value).  A derive_pings failure likewise leaves pings
unbound and fails the call at the device merge. -/
def parse_responses (key : String) (subset : SubjectRecord) : Except PyErr DF :=
  match derive_answers subset with
  | Except.error e => Except.error e
  | Except.ok a0 =>
      let a1 := match parse_race a0 with
                | Except.ok d => d
                | Except.error de => de.1
      let a2 := match parse_nominations a1 with
                | Except.ok d => d
                | Except.error de => de.1
      match derive_pings subset key with
      | Except.error e => Except.error e
      | Except.ok pings0 =>
          let devices := (dfFromRecords [subset.user.device]).setColScalar "username"
            (PyVal.str (usernameOfKey key))
          match pings0.merge devices "username" with
          | Except.error e => Except.error e
          | Except.ok pings1 => output key pings1 a2

/-! ## The orchestrator (run_this_puppy) -/

inductive RunErr where
  | sysExitOne
  | pyError (e : PyErr)
  deriving DecidableEq, Repr

structure RunOutput where
  duplicates : List (String × Nat × List String)
  aggregate : DF
  parentErrors : List (String × SubjectRecord)
  devices : List DF
  deriving DecidableEq, Repr

/-- The per-subject answers loop: a subject with an empty answers array
goes verbatim into the parent-errors map and is skipped; otherwise
parse_responses either contributes a subject table or is caught and
logged. -/
def answersLoop : List (String × SubjectRecord) → List DF × List (String × SubjectRecord)
  | [] => ([], [])
  | (k, s) :: rest =>
      if s.answers.isEmpty then
        let r := answersLoop rest
        (r.1, (k, s) :: r.2)
      else
        match parse_responses k s with
        | Except.ok df => let r := answersLoop rest; (df :: r.1, r.2)
        | Except.error _ => answersLoop rest

/-- The aggregation step: pd.concat of the kept tables, with the
exception handler calling sys.exit(1) when there is nothing to
concatenate. -/
def aggregatePings (keepers : List DF) : Except RunErr DF :=
  match pdConcat keepers with
  | Except.ok df => Except.ok df
  | Except.error _ => Except.error RunErr.sysExitOne

/-- The device loop: per subject, parse_device_info is caught and
logged, but the concat of the accumulated tables sits inside the loop
and outside the catch, so an empty accumulation raises out of the run. -/
def deviceLoop : List (String × SubjectRecord) → List DF → Except PyErr (List DF)
  | [], acc => Except.ok acc
  | (k, s) :: rest, acc =>
      let acc2 := match parse_device_info s k with
                  | Except.ok df => acc ++ [df]
                  | Except.error _ => acc
      if acc2.isEmpty then Except.error PyErr.valueError
      else deviceLoop rest acc2

/-- EMA_Parser.run_this_puppy: duplicate scan, answers loop, aggregation
(fatal exit on an empty keepers list), then the device loop. -/
def run_this_puppy (store : List (String × SubjectRecord)) : Except RunErr RunOutput := do
  let dups := sanity_check (store.map (fun p => p.1))
  let lp := answersLoop store
  let agg ← aggregatePings lp.1
  let devs ← match deviceLoop store [] with
             | Except.ok ds => Except.ok ds
             | Except.error e => Except.error (RunErr.pyError e)
  pure ⟨dups, agg, lp.2, devs⟩

/-! ## Concrete inputs used by the claims -/

/-- Scenario A subject record: one ping p1, one answered question q1
with data value yes, device model X, app version 1.0. -/
def recA : SubjectRecord :=
  ⟨[[("id", PyVal.str "p1"), ("streamName", PyVal.str "s"), ("startTime", PyVal.str "t0"),
     ("notificationTime", PyVal.str "t0"), ("endTime", PyVal.str "t1"), ("tzOffset", PyVal.int 0)]],
   [[("pingId", PyVal.str "p1"), ("questionId", PyVal.str "q1"), ("date", PyVal.str "d0"),
     ("preferNotToAnswer", PyVal.bool false), ("data", PyVal.dict [("0", "yes")])]],
   ⟨"alice", [("model", PyVal.str "X")], [("version", PyVal.str "1.0")]⟩⟩

/-- The scenario A store: one subject-session key. -/
def storeA : List (String × SubjectRecord) := [("alice-A", recA)]

/-- The expected scenario A aggregate: one row with username alice,
login-node A, id p1, the reduced device attribute model X, and the
pivoted answer column q1 holding yes. -/
def aggA : DF :=
  ⟨["username", "login-node", "streamName", "startTime", "notificationTime", "endTime", "id",
    "tzOffset", "model", "q1"],
   [[("username", PyVal.str "alice"), ("login-node", PyVal.str "A"),
     ("streamName", PyVal.str "s"), ("startTime", PyVal.str "t0"),
     ("notificationTime", PyVal.str "t0"), ("endTime", PyVal.str "t1"),
     ("id", PyVal.str "p1"), ("tzOffset", PyVal.int 0), ("model", PyVal.str "X"),
     ("q1", PyVal.str "yes")]]⟩

/-- The device table the device loop produces for scenario A: the login
time lands in the suffixed columns login_time_x and login_time_y. -/
def deviceOutA : DF :=
  ⟨["username", "model", "login_time_x", "version", "login_time_y"],
   [[("username", PyVal.str "alice"), ("model", PyVal.str "X"),
     ("login_time_x", PyVal.str "A"), ("version", PyVal.str "1.0"),
     ("login_time_y", PyVal.str "A")]]⟩

/-- A one-row answers table lacking all four nomination parent columns,
as produced for any subject that answered no nomination item. -/
def nominationsInput : DF :=
  ⟨["id", "q1"], [[("id", PyVal.str "p1"), ("q1", PyVal.str "yes")]]⟩

/-- A one-row table lacking the Race column. -/
def raceInput : DF := ⟨["A"], [[("A", PyVal.str "x")]]⟩

/-- Store keys where one subject id (al) is a substring of the keys of
another subject (alice-B, alice-C). -/
def overlapKeys : List String := ["al-A", "alice-B", "alice-C"]

/-! ## Claim theorems -/

/-- Claim C1 (code bug): on a nonempty table lacking a nomination
parent column, parse_nominations raises a pandas ValueError at the
assignment of the empty list to the parent column (the intended
standardisation comment notwithstanding), instead of creating the three
empty child columns per parent; no child columns are produced at all. -/
theorem parse_nominations_absent_parent_raises :
    parse_nominations nominationsInput = Except.error (nominationsInput, PyErr.valueError) ∧
    DF.nrows nominationsInput = 1 ∧
    nominationsInput.cols.contains "SU_Nom" = false := by decide

/-- Claim C2 (code bug): sanity_check gathers, for each first key
segment, every key CONTAINING that segment as a substring.  With keys
al-A, alice-B, alice-C, the subject al is the first segment of exactly
one key, yet it receives an entry with count 3 listing all three keys;
the claim requires no entry for al at all. -/
theorem sanity_check_substring_overcount :
    sanity_check overlapKeys =
      [("al", 3, ["al-A", "alice-B", "alice-C"]), ("alice", 2, ["alice-B", "alice-C"])] ∧
    (overlapKeys.filter (fun k => usernameOfKey k == "al")).length = 1 := by decide

/-- Claim C3 counterexample: for the key alice-A-B (subject id alice,
session suffix A-B), the login-node computation joins the remaining
segments with the empty string and yields AB, not the suffix A-B. -/
theorem loginNode_counterexample :
    usernameOfKey "alice-A-B" = "alice" ∧
    loginNodeOfKey "alice-A-B" = "AB" ∧ "AB" ≠ "A-B" := by decide

/-- Claim C4: on the scenario A store the pipeline keeps exactly one
subject table; the run returns an empty duplicate report, the one-row
aggregate with username alice, login-node A, id p1, q1 yes and device
model X merged in, and an empty parent-errors map. -/
theorem scenarioA_pipeline :
    (answersLoop storeA).1.length = 1 ∧
    run_this_puppy storeA = Except.ok ⟨[], aggA, [], [deviceOutA]⟩ := by decide

/-- Claim C7 (code bug): on a nonempty table lacking the Race column,
parse_race raises a pandas ValueError (the empty-list assignment in its
own exception handler has the wrong length), instead of returning the
table with an empty Race column. -/
theorem parse_race_absent_nonempty_raises :
    parse_race raceInput = Except.error (raceInput, PyErr.valueError) ∧
    DF.nrows raceInput = 1 ∧
    raceInput.cols.contains "Race" = false := by decide

/-- Claim C8 counterexample: for a record with device map (model X) and
app map (version 1.0) both present, the returned single-row table has
the login time only under the merge-suffixed labels login_time_x and
login_time_y; no login_time column exists, contrary to the claim. -/
theorem device_no_login_time_column :
    parse_device_info recA "alice-A" = Except.ok deviceOutA ∧
    deviceOutA.cols.contains "login_time" = false := by decide

/-- A subject whose two answers share (pingId, questionId) under two
different dates, so date-deduplication keeps both. -/
def recDup : SubjectRecord :=
  ⟨[], [[("pingId", PyVal.str "p1"), ("questionId", PyVal.str "q1"), ("date", PyVal.str "d0"),
         ("preferNotToAnswer", PyVal.bool false), ("data", PyVal.dict [("0", "yes")])],
        [("pingId", PyVal.str "p1"), ("questionId", PyVal.str "q1"), ("date", PyVal.str "d1"),
         ("preferNotToAnswer", PyVal.bool false), ("data", PyVal.dict [("0", "no")])]],
   ⟨"bob", [], []⟩⟩

/-- The frame derive_answers builds for recDup just before the pivot. -/
def recDupPre : DF :=
  ⟨["pingId", "questionId", "date", "value", "IX"],
   [[("pingId", PyVal.str "p1"), ("questionId", PyVal.str "q1"), ("date", PyVal.str "d0"),
     ("value", PyVal.str "yes"), ("IX", PyVal.int 0)],
    [("pingId", PyVal.str "p1"), ("questionId", PyVal.str "q1"), ("date", PyVal.str "d1"),
     ("value", PyVal.str "no"), ("IX", PyVal.int 1)]]⟩

/-- Claim C10: when the frame reaching the pivot still holds two rows
with the same (pingId, questionId) pair, derive_answers raises a
ValueError at the pivot instead of returning a table, and the whole
parse_responses call for that subject fails, so the subject contributes
nothing to the run. -/
theorem derive_answers_dup_pivot_raises (subset : SubjectRecord) (a : DF)
    (hpre : derive_answers_pre subset = Except.ok a)
    (hc1 : a.cols.contains "pingId" = true)
    (hc2 : a.cols.contains "questionId" = true)
    (hc3 : a.cols.contains "value" = true)
    (hdup : hasDupPairs (a.pivotPairs "pingId" "questionId") = true) :
    derive_answers subset = Except.error PyErr.valueError ∧
    ∀ key, parse_responses key subset = Except.error PyErr.valueError := by
  have hpiv : a.pivot "pingId" "questionId" "value" = Except.error PyErr.valueError := by
    unfold DF.pivot
    rw [hc1, hc2, hc3]
    simp [hdup]
  have h1 : derive_answers subset = Except.error PyErr.valueError := by
    simp [derive_answers, hpre, hpiv, bind, Except.bind]
  exact ⟨h1, fun key => by simp [parse_responses, h1]⟩

/-- Witness for claim C10 at the concrete duplicate-answers record. -/
theorem derive_answers_dup_pivot_raises_witness :
    derive_answers recDup = Except.error PyErr.valueError :=
  (derive_answers_dup_pivot_raises recDup recDupPre (by decide) (by decide) (by decide)
    (by decide) (by decide)).1

/-- Scenario B subject record: one ping, an empty answers array. -/
def recB : SubjectRecord := ⟨[[("id", PyVal.str "p2")]], [], ⟨"bob", [], []⟩⟩

/-- The scenario B store. -/
def storeB : List (String × SubjectRecord) := [("bob-B", recB)]

/-- Claim C6: with no surviving subject tables the run exits fatally
with status one at the aggregation step; with at least one surviving
table the aggregation succeeds and the run continues into the device
phase. -/
theorem aggregate_empty_fatal (store : List (String × SubjectRecord)) :
    ((answersLoop store).1 = [] → run_this_puppy store = Except.error RunErr.sysExitOne) ∧
    ((answersLoop store).1 ≠ [] →
      ∃ agg, aggregatePings (answersLoop store).1 = Except.ok agg ∧
        run_this_puppy store =
          match deviceLoop store [] with
          | Except.ok devs =>
              Except.ok ⟨sanity_check (store.map (fun p => p.1)), agg,
                         (answersLoop store).2, devs⟩
          | Except.error e => Except.error (RunErr.pyError e)) := by
  constructor
  · intro h
    simp [run_this_puppy, aggregatePings, pdConcat, h, bind, Except.bind]
  · intro h
    match hk : (answersLoop store).1 with
    | [] => exact absurd hk h
    | d :: rest =>
      refine ⟨rest.foldl concat2 d, by simp [aggregatePings, pdConcat, hk], ?_⟩
      simp only [run_this_puppy, aggregatePings, pdConcat, hk]
      cases hd : deviceLoop store [] <;> simp [hd, bind, Except.bind, pure, Except.pure]

/-- Witness for claim C6: the scenario B store keeps no subject table,
so the run exits fatally. -/
theorem aggregate_empty_fatal_witness :
    run_this_puppy storeB = Except.error RunErr.sysExitOne :=
  (aggregate_empty_fatal storeB).1 (by decide)

/-- Claim C5: a subject with an empty answers sequence goes verbatim
into the parent-errors map and contributes nothing to the kept subject
tables or the aggregate; conversely every parent-errors entry is a
store entry with an empty answers sequence, and every kept table comes
from a subject with nonempty answers whose parse succeeded. -/
theorem emptyAnswers_parentErrors (store : List (String × SubjectRecord)) :
    (∀ k s, (k, s) ∈ store → s.answers = [] → (k, s) ∈ (answersLoop store).2) ∧
    (∀ k s, (k, s) ∈ (answersLoop store).2 → (k, s) ∈ store ∧ s.answers = []) ∧
    (∀ df, df ∈ (answersLoop store).1 →
      ∃ k s, (k, s) ∈ store ∧ s.answers ≠ [] ∧ parse_responses k s = Except.ok df) := by
  induction store with
  | nil => simp [answersLoop]
  | cons p rest ih =>
    obtain ⟨ih1, ih2, ih3⟩ := ih
    obtain ⟨k0, s0⟩ := p
    by_cases h : s0.answers.isEmpty
    · have hloop : answersLoop ((k0, s0) :: rest) =
          ((answersLoop rest).1, (k0, s0) :: (answersLoop rest).2) := by
        simp [answersLoop, h]
      have h0 : s0.answers = [] := List.isEmpty_iff.mp h
      refine ⟨?_, ?_, ?_⟩
      · intro k s hmem _
        rw [hloop]
        rcases List.mem_cons.mp hmem with heq | hmem2
        · rw [heq]; exact List.mem_cons_self _ _
        · exact List.mem_cons_of_mem _ (ih1 k s hmem2 (by assumption))
      · intro k s hmem
        rw [hloop] at hmem
        rcases List.mem_cons.mp hmem with heq | hmem2
        · injection heq with h1 h2
          subst h1; subst h2
          exact ⟨List.mem_cons_self _ _, h0⟩
        · have hr := ih2 k s hmem2
          exact ⟨List.mem_cons_of_mem _ hr.1, hr.2⟩
      · intro df hdf
        rw [hloop] at hdf
        obtain ⟨k, s, hm, hne, hp⟩ := ih3 df hdf
        exact ⟨k, s, List.mem_cons_of_mem _ hm, hne, hp⟩
    · have h0 : s0.answers ≠ [] := by simpa [List.isEmpty_iff] using h
      cases hpr : parse_responses k0 s0 with
      | error e =>
        have hloop : answersLoop ((k0, s0) :: rest) = answersLoop rest := by
          simp [answersLoop, h, hpr]
        refine ⟨?_, ?_, ?_⟩
        · intro k s hmem hse
          rw [hloop]
          rcases List.mem_cons.mp hmem with heq | hmem2
          · injection heq with h1 h2
            subst h1; subst h2
            exact absurd hse h0
          · exact ih1 k s hmem2 hse
        · intro k s hmem
          rw [hloop] at hmem
          have hr := ih2 k s hmem
          exact ⟨List.mem_cons_of_mem _ hr.1, hr.2⟩
        · intro df hdf
          rw [hloop] at hdf
          obtain ⟨k, s, hm, hne, hp⟩ := ih3 df hdf
          exact ⟨k, s, List.mem_cons_of_mem _ hm, hne, hp⟩
      | ok df0 =>
        have hloop : answersLoop ((k0, s0) :: rest) =
            (df0 :: (answersLoop rest).1, (answersLoop rest).2) := by
          simp [answersLoop, h, hpr]
        refine ⟨?_, ?_, ?_⟩
        · intro k s hmem hse
          rw [hloop]
          rcases List.mem_cons.mp hmem with heq | hmem2
          · injection heq with h1 h2
            subst h1; subst h2
            exact absurd hse h0
          · exact ih1 k s hmem2 hse
        · intro k s hmem
          rw [hloop] at hmem
          have hr := ih2 k s hmem
          exact ⟨List.mem_cons_of_mem _ hr.1, hr.2⟩
        · intro df hdf
          rw [hloop] at hdf
          rcases List.mem_cons.mp hdf with heq | hdf2
          · exact ⟨k0, s0, List.mem_cons_self _ _, h0, by rw [heq]; exact hpr⟩
          · obtain ⟨k, s, hm, hne, hp⟩ := ih3 df hdf2
            exact ⟨k, s, List.mem_cons_of_mem _ hm, hne, hp⟩

/-- Witness for claim C5: scenario B places the bob record verbatim in
the parent-errors map. -/
theorem emptyAnswers_parentErrors_witness :
    ("bob-B", recB) ∈ (answersLoop storeB).2 :=
  (emptyAnswers_parentErrors storeB).1 "bob-B" recB (by decide) rfl

/-- splitChar never returns the empty list. -/
theorem splitChar_ne_nil (sep : Char) (l : List Char) : splitChar sep l ≠ [] := by
  induction l with
  | nil => simp [splitChar]
  | cons c rest ih =>
    simp only [splitChar]
    split
    · simp
    · cases h : splitChar sep rest with
      | nil => exact absurd h ih
      | cons s ss => simp

/-- splitChar on a separator-free list yields that single segment. -/
theorem splitChar_eq_single (sep : Char) (l : List Char) (h : ∀ c ∈ l, c ≠ sep) :
    splitChar sep l = [l] := by
  induction l with
  | nil => simp [splitChar]
  | cons c rest ih =>
    have hc : c ≠ sep := h c (by simp)
    have hrest : splitChar sep rest = [rest] := ih (fun x hx => h x (by simp [hx]))
    simp [splitChar, hc, hrest]

/-- splitChar splits off a separator-free prefix at the first separator. -/
theorem splitChar_append (sep : Char) (a b : List Char) (h : ∀ c ∈ a, c ≠ sep) :
    splitChar sep (a ++ sep :: b) = a :: splitChar sep b := by
  induction a with
  | nil => simp [splitChar]
  | cons c arest ih =>
    have hc : c ≠ sep := h c (by simp)
    have hrec := ih (fun x hx => h x (by simp [hx]))
    simp only [List.cons_append, splitChar, List.append_eq]
    rw [if_neg hc, hrec]

/-- Joining the segments of splitChar deletes exactly the separator. -/
theorem flatten_splitChar (sep : Char) (l : List Char) :
    (splitChar sep l).flatten = l.filter (fun c => c != sep) := by
  induction l with
  | nil => simp [splitChar]
  | cons c rest ih =>
    by_cases hc : c = sep
    · subst hc
      simp [splitChar, ih]
    · simp only [splitChar, if_neg hc]
      cases h : splitChar sep rest with
      | nil => exact absurd h (splitChar_ne_nil sep rest)
      | cons s ss =>
        rw [h] at ih
        simp only [List.flatten_cons] at ih ⊢
        simp [List.filter_cons, hc, ih]

/-- Claim C3 corrected: when the subject id holds no separator, the
login-node computation returns the session suffix with every separator
character deleted; it recovers the suffix exactly if and only if the
suffix itself is separator-free. -/
theorem loginNode_amended (sid sfx : String) (h : ∀ c ∈ sid.data, c ≠ '-') :
    loginNodeOfKey (sid ++ "-" ++ sfx) =
      String.mk (sfx.data.filter (fun c => c != '-')) ∧
    ((∀ c ∈ sfx.data, c ≠ '-') → loginNodeOfKey (sid ++ "-" ++ sfx) = sfx) := by
  have hdata : (sid ++ "-" ++ sfx).data = sid.data ++ '-' :: sfx.data := by
    rw [String.data_append (sid ++ "-") sfx, String.data_append sid "-"]
    have hdash : ("-" : String).data = ['-'] := rfl
    rw [hdash, List.append_assoc]
    rfl
  have hmain : loginNodeOfKey (sid ++ "-" ++ sfx) =
      String.mk (sfx.data.filter (fun c => c != '-')) := by
    unfold loginNodeOfKey keySegs
    rw [hdata, splitChar_append '-' sid.data sfx.data h]
    simp [flatten_splitChar]
  refine ⟨hmain, fun hsfx => ?_⟩
  rw [hmain, List.filter_eq_self.mpr (fun c hc => by simp [hsfx c hc])]

/-- Witness for claim C3 corrected, at the key alice-A-B. -/
theorem loginNode_amended_witness :
    loginNodeOfKey ("alice" ++ "-" ++ "A-B") =
      String.mk (("A-B" : String).data.filter (fun c => c != '-')) :=
  (loginNode_amended "alice" "A-B" (by decide)).1

/-- strip1 empties exactly the empty string and the lone bracket. -/
theorem strip1_eq_nil_iff (l : List Char) : strip1 l = [] ↔ l = [] ∨ l = ['['] := by
  cases l with
  | nil => simp [strip1]
  | cons c t =>
    simp only [strip1]
    by_cases hc : c = '['
    · subst hc; simp
    · simp [hc]

/-- strip1 yields a given nonempty result (not starting with a bracket)
exactly on that result and on its bracket-prefixed form. -/
theorem strip1_eq_cons_iff (x : Char) (s : List Char) (hx : x ≠ '[') (l : List Char) :
    strip1 l = x :: s ↔ l = x :: s ∨ l = '[' :: x :: s := by
  cases l with
  | nil => simp [strip1]
  | cons c t =>
    simp only [strip1]
    by_cases hc : c = '['
    · subst hc; simp [Ne.symm hx]
    · simp [hc]

/-- Auxiliary shape of the trailing-bracket strip: emptiness cases. -/
theorem stripLastBr_eq_nil_iff (m : List Char) :
    (if m.getLast? = some ']' then m.dropLast else m) = [] ↔ m = [] ∨ m = [']'] := by
  induction m using List.reverseRecOn with
  | nil => simp
  | append_singleton m' x _ =>
    by_cases hx : x = ']'
    · subst hx
      rw [if_pos (by simp [List.getLast?_concat]), List.dropLast_concat]
      constructor
      · rintro rfl; exact Or.inr rfl
      · rintro (h | h)
        · simp at h
        · rcases m' with _ | ⟨a, m''⟩
          · rfl
          · simp at h
    · rw [if_neg (by simp [List.getLast?_concat, hx])]
      constructor
      · intro h; exact Or.inl h
      · rintro (h | h)
        · exact h
        · exfalso
          have hlast : (m' ++ [x]).getLast? = ([']'] : List Char).getLast? := by rw [h]
          rw [List.getLast?_concat] at hlast
          have h2 : ([']'] : List Char).getLast? = some ']' := rfl
          rw [h2] at hlast
          exact hx (Option.some.inj hlast)

/-- Auxiliary shape of the trailing-bracket strip: singleton cases. -/
theorem stripLastBr_eq_single_iff (m : List Char) (x : Char) (hx : x ≠ ']') :
    (if m.getLast? = some ']' then m.dropLast else m) = [x] ↔ m = [x] ∨ m = [x, ']'] := by
  induction m using List.reverseRecOn with
  | nil => simp
  | append_singleton m' y _ =>
    by_cases hy : y = ']'
    · subst hy
      rw [if_pos (by simp [List.getLast?_concat]), List.dropLast_concat]
      constructor
      · rintro rfl; exact Or.inr rfl
      · rintro (h | h)
        · exfalso
          have hlast : (m' ++ [']']).getLast? = ([x] : List Char).getLast? := by rw [h]
          rw [List.getLast?_concat] at hlast
          have h2 : ([x] : List Char).getLast? = some x := rfl
          rw [h2] at hlast
          exact hx (Option.some.inj hlast).symm
        · have hd := congrArg List.dropLast h
          rw [List.dropLast_concat] at hd
          simpa using hd
    · rw [if_neg (by simp [List.getLast?_concat, hy])]
      constructor
      · intro h; exact Or.inl h
      · rintro (h | h)
        · exact h
        · exfalso
          have hlast : (m' ++ [y]).getLast? = ([x, ']'] : List Char).getLast? := by rw [h]
          rw [List.getLast?_concat] at hlast
          have h2 : ([x, ']'] : List Char).getLast? = some ']' := rfl
          rw [h2] at hlast
          exact hy (Option.some.inj hlast)

/-- stripq empties exactly the empty string and the lone quotes. -/
theorem stripq_eq_nil_iff (m : List Char) :
    stripq m = [] ↔ m = [] ∨ m = ['\''] ∨ m = ['"'] := by
  cases m with
  | nil => simp [stripq]
  | cons c t =>
    simp only [stripq]
    by_cases h1 : c = '\''
    · subst h1; simp
    · by_cases h2 : c = '"'
      · subst h2; simp [h1]
      · simp [h1, h2]

/-- strip2 empties exactly on the four bracket-only forms. -/
theorem strip2_eq_nil_iff (l : List Char) :
    strip2 l = [] ↔ l = [] ∨ l = ['['] ∨ l = [']'] ∨ l = ['[', ']'] := by
  rw [strip2, stripLastBr_eq_nil_iff, strip1_eq_nil_iff,
      strip1_eq_cons_iff ']' [] (by decide)]
  tauto

/-- strip2 yields a lone quote exactly on the four forms built from
that quote and the stripped brackets. -/
theorem strip2_eq_quote_iff (l : List Char) (q : Char) (hq : q ≠ ']') (hq2 : q ≠ '[') :
    strip2 l = [q] ↔ l = [q] ∨ l = ['[', q] ∨ l = [q, ']'] ∨ l = ['[', q, ']'] := by
  rw [strip2, stripLastBr_eq_single_iff _ q hq,
      strip1_eq_cons_iff q [] hq2, strip1_eq_cons_iff q [']'] hq2]
  tauto

/-- The twelve string forms on which cleanup_values raises. -/
def cleanupRaisingForms : List (List Char) :=
  [[], ['['], [']'], ['[', ']'],
   ['\''], ['"'], ['[', '\''], ['[', '"'],
   ['\'', ']'], ['"', ']'], ['[', '\'', ']'], ['[', '"', ']']]

set_option maxHeartbeats 2000000 in
/-- Claim C9 amended: cleanup_values raises IndexError exactly on the
twelve string forms emptied during the sequential stripping of the
leading bracket, the trailing bracket and the leading quote; on every
other string it returns normally (including strings emptied only by the
final trailing-quote strip, which return the empty string). -/
theorem cleanup_error_characterization (s : String) :
    (cleanup_values (PyVal.str s)).isOk = false ↔ s.data ∈ cleanupRaisingForms := by
  have hmaster : (cleanupChars s.data).isOk = false ↔
      (s.data = [] ∨ strip1 s.data = [] ∨ strip2 s.data = [] ∨ strip3 s.data = []) := by
    unfold cleanupChars
    split_ifs with h1 h2 h3 h4 <;> simp_all [Except.isOk, Except.toBool]
  have hval : (cleanup_values (PyVal.str s)).isOk = (cleanupChars s.data).isOk := by
    rcases h : cleanupChars (pyStr (PyVal.str s)).data with e | cs <;>
      simp [cleanup_values, h, Except.isOk, Except.toBool, pyStr] <;>
      simp [pyStr] at h <;> simp [h, Except.toBool]
  rw [hval, hmaster, strip1_eq_nil_iff, strip2_eq_nil_iff]
  rw [strip3, stripq_eq_nil_iff, strip2_eq_nil_iff,
      strip2_eq_quote_iff _ '\'' (by decide) (by decide),
      strip2_eq_quote_iff _ '"' (by decide) (by decide)]
  simp only [cleanupRaisingForms, List.mem_cons, List.not_mem_nil, or_false]
  tauto

/-- The literal claim predicate for C9: the string form is empty, or
becomes empty after stripping one leading square bracket or one leading
quote. -/
def specEmptyAfterLeadingStrip (s : String) : Bool :=
  s.isEmpty ||
  (match s.data with
   | c :: rest => (c == '[' || c == '\'' || c == '"') && rest.isEmpty
   | [] => true)

/-- Claim C9 counterexample: cleanup_values raises IndexError on the
lone trailing bracket, whose string form does not become empty after
stripping one leading bracket or quote; so cleanup_values does not
return normally on all inputs outside the claimed set. -/
theorem cleanup_claim_counterexample :
    cleanup_values (PyVal.str "]") = Except.error PyErr.indexError ∧
    specEmptyAfterLeadingStrip "]" = false := by decide

/-- Keys of pairs outside a key list differ from that key pointwise. -/
theorem key_ne_of_not_mem {l : List (String × PyVal)} {a : String}
    (h : a ∉ l.map Prod.fst) : ∀ p ∈ l, p.1 ≠ a :=
  fun _ hp he => h (he ▸ List.mem_map_of_mem Prod.fst hp)

/-- Cell lookup skips a prefix none of whose keys is the target. -/
theorem rowGet_append_right (r1 r2 : Row) (c : String) (h : c ∉ r1.map Prod.fst) :
    rowGet (r1 ++ r2) c = rowGet r2 c := by
  unfold rowGet
  rw [List.find?_append]
  have hnone : r1.find? (fun p => p.1 == c) = Option.none :=
    List.find?_eq_none.mpr (fun p hp => by simpa using key_ne_of_not_mem h p hp)
  rw [hnone, Option.none_or]

/-- Cell lookup finds the head pair. -/
theorem rowGet_cons_self (c : String) (v : PyVal) (r : Row) :
    rowGet ((c, v) :: r) c = some v := by
  simp [rowGet]

/-- First-occurrence dedup is the identity on duplicate-free lists. -/
theorem dedupStrs_go (l acc : List String) (h : ∀ x ∈ l, x ∉ acc) (hnd : l.Nodup) :
    l.foldl (fun acc x => if acc.contains x then acc else acc ++ [x]) acc = acc ++ l := by
  induction l generalizing acc with
  | nil => simp
  | cons x rest ih =>
    have hx : acc.contains x = false := by
      simpa using h x (by simp)
    simp only [List.foldl_cons, hx, Bool.false_eq_true, if_neg, ite_false]
    rw [ih (acc ++ [x])
        (fun y hy => by
          have h1 : y ∉ acc := h y (by simp [hy])
          have h2 : y ≠ x := by
            rintro rfl
            exact (List.nodup_cons.mp hnd).1 hy
          simp [h1, h2])
        (List.nodup_cons.mp hnd).2]
    simp

theorem dedupStrs_eq_self (l : List String) (hnd : l.Nodup) : dedupStrs l = l := by
  have := dedupStrs_go l [] (by simp) hnd
  simpa [dedupStrs] using this

/-- Normalising a duplicate-free record against its own key list is the
identity. -/
theorem normalizeRecord_self (r : List (String × PyVal)) (hnd : (r.map Prod.fst).Nodup) :
    (r.map Prod.fst).map
      (fun c => (c, ((r.find? (fun p => p.1 == c)).map (fun p => p.2)).getD PyVal.nan)) = r := by
  induction r with
  | nil => simp
  | cons kv rest ih =>
    obtain ⟨k, v⟩ := kv
    have hnd2 : (k :: rest.map Prod.fst).Nodup := by simpa using hnd
    have hk : k ∉ rest.map Prod.fst := (List.nodup_cons.mp hnd2).1
    have hrest := ih (List.nodup_cons.mp hnd2).2
    simp only [List.map_cons]
    congr 1
    · rw [List.find?_cons_of_pos _ (by simp)]
      rfl
    · calc (rest.map Prod.fst).map (fun c =>
              (c, ((List.find? (fun p => p.1 == c) ((k, v) :: rest)).map (fun p => p.2)).getD
                PyVal.nan))
          = (rest.map Prod.fst).map (fun c =>
              (c, ((rest.find? (fun p => p.1 == c)).map (fun p => p.2)).getD PyVal.nan)) := by
            apply List.map_congr_left
            intro c hc
            have hck : ¬ ((k, v).1 == c) = true := by
              simp only [beq_iff_eq]
              rintro rfl
              exact hk hc
            have hfind : List.find? (fun p => p.1 == c) ((k, v) :: rest) =
                List.find? (fun p => p.1 == c) rest :=
              List.find?_cons_of_neg rest hck
            rw [hfind]
        _ = rest := hrest

/-- pd.DataFrame of one duplicate-free record. -/
theorem dfFromRecords_single (r : List (String × PyVal)) (hnd : (r.map Prod.fst).Nodup) :
    dfFromRecords [r] = ⟨r.map Prod.fst, [r]⟩ := by
  unfold dfFromRecords
  simp only [List.map_cons, List.map_nil, List.flatten]
  rw [dedupStrs_eq_self _ (by simpa using hnd)]
  simp only [List.flatten_nil, List.append_nil]
  congr 1
  simp [normalizeRecord_self r hnd]

/-- Assigning a fresh scalar column to a one-row frame appends the
column and the cell. -/
theorem setColScalar_single (cols : List String) (r : Row) (c : String) (v : PyVal)
    (hr : r.map Prod.fst = cols) (hc : c ∉ cols) :
    DF.setColScalar ⟨cols, [r]⟩ c v = ⟨cols ++ [c], [r ++ [(c, v)]]⟩ := by
  have hcc : cols.contains c = false := by simpa using hc
  have hany : r.any (fun p => p.1 == c) = false := by
    rw [List.any_eq_false]
    intro p hp
    simp only [beq_iff_eq]
    intro he
    exact hc (by rw [← hr, ← he]; exact List.mem_map_of_mem Prod.fst hp)
  unfold DF.setColScalar DF.withCol
  simp [hcc, hc, rowSet, hany]

/-- Inner merge of two one-row frames agreeing on the key cell, with the
overlap list supplied. -/
theorem merge_single_row (lc rc : List String) (lr rr : Row) (key : String) (ov : List String)
    (hkl : lc.contains key = true) (hkr : rc.contains key = true)
    (hov : lc.filter (fun c => (c != key) && rc.contains c) = ov)
    (heq : (rowGet rr key == rowGet lr key) = true) :
    DF.merge ⟨lc, [lr]⟩ ⟨rc, [rr]⟩ key = Except.ok
      ⟨lc.map (fun c => if ov.contains c then c ++ "_x" else c) ++
        (rc.filter (fun c => c != key)).map (fun c => if ov.contains c then c ++ "_y" else c),
       [lr.map (fun p => (if ov.contains p.1 then p.1 ++ "_x" else p.1, p.2)) ++
        (rr.filter (fun p => p.1 != key)).map
          (fun p => (if ov.contains p.1 then p.1 ++ "_y" else p.1, p.2))]⟩ := by
  unfold DF.merge
  split
  next => rw [hov]; simp [heq]
  next h => rw [hkl, hkr] at h; simp at h

/-- Claim C8 corrected: for a record with device and app maps present
(duplicate-free attribute names, distinct from each other and from the
username and login_time labels), the extractor returns one row holding
the username, every device attribute, every app attribute, and the
login time of the key under the two merge-suffixed labels login_time_x
and login_time_y; no plain login_time column is produced. -/
theorem parse_device_info_amended
    (un key : String) (dev app : List (String × PyVal))
    (pg ans : List (List (String × PyVal)))
    (hdevnd : (dev.map Prod.fst).Nodup)
    (happnd : (app.map Prod.fst).Nodup)
    (hdev1 : "username" ∉ dev.map Prod.fst)
    (hdev2 : "login_time" ∉ dev.map Prod.fst)
    (happ1 : "username" ∉ app.map Prod.fst)
    (happ2 : "login_time" ∉ app.map Prod.fst)
    (hdisj : ∀ c ∈ app.map Prod.fst, c ∉ dev.map Prod.fst) :
    parse_device_info ⟨pg, ans, ⟨un, dev, app⟩⟩ key =
      Except.ok
        ⟨"username" :: (dev.map Prod.fst ++ "login_time_x" ::
            (app.map Prod.fst ++ ["login_time_y"])),
         [("username", PyVal.str un) ::
            (dev ++ ("login_time_x", PyVal.str (lastSegOfKey key)) ::
              (app ++ [("login_time_y", PyVal.str (lastSegOfKey key))]))]⟩ := by
  have lux : (("login_time" : String) != "username") = true := by decide
  have hlu_ne : ("login_time" : String) ≠ "username" := by decide
  have hdevKeyFilterU : (dev.map Prod.fst).filter (fun c => c != "username") = dev.map Prod.fst :=
    List.filter_eq_self.mpr (fun c hc => bne_iff_ne.mpr (fun he => hdev1 (he ▸ hc)))
  have happKeyFilterU : (app.map Prod.fst).filter (fun c => c != "username") = app.map Prod.fst :=
    List.filter_eq_self.mpr (fun c hc => bne_iff_ne.mpr (fun he => happ1 (he ▸ hc)))
  have hdevRowFilterU : dev.filter (fun p => p.1 != "username") = dev :=
    List.filter_eq_self.mpr (fun p hp => bne_iff_ne.mpr (key_ne_of_not_mem hdev1 p hp))
  have happRowFilterU : app.filter (fun p => p.1 != "username") = app :=
    List.filter_eq_self.mpr (fun p hp => bne_iff_ne.mpr (key_ne_of_not_mem happ1 p hp))
  have h1 : dfFromRecords [dev] = ⟨dev.map Prod.fst, [dev]⟩ := dfFromRecords_single dev hdevnd
  have h2 := setColScalar_single (dev.map Prod.fst) dev "username" (PyVal.str un) rfl hdev1
  have h3 : "login_time" ∉ dev.map Prod.fst ++ ["username"] := by
    intro hmem
    rcases List.mem_append.mp hmem with hmem | hmem
    · exact hdev2 hmem
    · exact hlu_ne (List.mem_singleton.mp hmem)
  have h4 := setColScalar_single (dev.map Prod.fst ++ ["username"])
    (dev ++ [("username", PyVal.str un)]) "login_time" (PyVal.str (lastSegOfKey key))
    (by simp) h3
  have hov1 : (["username"] : List String).filter
      (fun c => (c != "username") &&
        ((dev.map Prod.fst ++ ["username"]) ++ ["login_time"]).contains c) = [] := by
    simp
  have heq1 : (rowGet ((dev ++ [("username", PyVal.str un)]) ++
        [("login_time", PyVal.str (lastSegOfKey key))]) "username" ==
      rowGet [("username", PyVal.str un)] "username") = true := by
    rw [List.append_assoc, rowGet_append_right dev _ "username" hdev1]
    simp [rowGet, rowGet_cons_self]
  have hm1 := merge_single_row ["username"] ((dev.map Prod.fst ++ ["username"]) ++ ["login_time"])
    [("username", PyVal.str un)]
    ((dev ++ [("username", PyVal.str un)]) ++ [("login_time", PyVal.str (lastSegOfKey key))])
    "username" [] (by simp) (by simp) hov1 heq1
  have hm1' : DF.merge ⟨["username"], [[("username", PyVal.str un)]]⟩
      ⟨(dev.map Prod.fst ++ ["username"]) ++ ["login_time"],
       [(dev ++ [("username", PyVal.str un)]) ++
         [("login_time", PyVal.str (lastSegOfKey key))]]⟩ "username" =
      Except.ok ⟨"username" :: (dev.map Prod.fst ++ ["login_time"]),
        [("username", PyVal.str un) ::
          (dev ++ [("login_time", PyVal.str (lastSegOfKey key))])]⟩ := by
    rw [hm1]
    simp [List.filter_append, hdevKeyFilterU, hdevRowFilterU, lux]
  have h5 : dfFromRecords [app] = ⟨app.map Prod.fst, [app]⟩ := dfFromRecords_single app happnd
  have h6 := setColScalar_single (app.map Prod.fst) app "username" (PyVal.str un) rfl happ1
  have h7 : "login_time" ∉ app.map Prod.fst ++ ["username"] := by
    intro hmem
    rcases List.mem_append.mp hmem with hmem | hmem
    · exact happ2 hmem
    · exact hlu_ne (List.mem_singleton.mp hmem)
  have h8 := setColScalar_single (app.map Prod.fst ++ ["username"])
    (app ++ [("username", PyVal.str un)]) "login_time" (PyVal.str (lastSegOfKey key))
    (by simp) h7
  have hdevDrop : (dev.map Prod.fst).filter
      (fun c => (c != "username") &&
        ((app.map Prod.fst ++ ["username"]) ++ ["login_time"]).contains c) = [] := by
    rw [List.filter_eq_nil_iff]
    intro c hc
    have hcapp : c ∉ app.map Prod.fst := fun hca => hdisj c hca hc
    have hcu : c ≠ "username" := fun he => hdev1 (he ▸ hc)
    have hclt : c ≠ "login_time" := fun he => hdev2 (he ▸ hc)
    simp [hcapp, hcu, hclt]
  have hov2 : ("username" :: (dev.map Prod.fst ++ ["login_time"])).filter
      (fun c => (c != "username") &&
        ((app.map Prod.fst ++ ["username"]) ++ ["login_time"]).contains c) = ["login_time"] := by
    rw [List.filter_cons, List.filter_append, hdevDrop]
    simp [lux]
  have heq2 : (rowGet ((app ++ [("username", PyVal.str un)]) ++
        [("login_time", PyVal.str (lastSegOfKey key))]) "username" ==
      rowGet (("username", PyVal.str un) ::
        (dev ++ [("login_time", PyVal.str (lastSegOfKey key))])) "username") = true := by
    rw [List.append_assoc, rowGet_append_right app _ "username" happ1]
    simp [rowGet, rowGet_cons_self]
  have hm2 := merge_single_row ("username" :: (dev.map Prod.fst ++ ["login_time"]))
    ((app.map Prod.fst ++ ["username"]) ++ ["login_time"])
    (("username", PyVal.str un) :: (dev ++ [("login_time", PyVal.str (lastSegOfKey key))]))
    ((app ++ [("username", PyVal.str un)]) ++ [("login_time", PyVal.str (lastSegOfKey key))])
    "username" ["login_time"] (by simp) (by simp) hov2 heq2
  have hm2' : DF.merge ⟨"username" :: (dev.map Prod.fst ++ ["login_time"]),
      [("username", PyVal.str un) :: (dev ++ [("login_time", PyVal.str (lastSegOfKey key))])]⟩
      ⟨(app.map Prod.fst ++ ["username"]) ++ ["login_time"],
       [(app ++ [("username", PyVal.str un)]) ++
         [("login_time", PyVal.str (lastSegOfKey key))]]⟩ "username" =
      Except.ok
        ⟨"username" :: (dev.map Prod.fst ++ "login_time_x" ::
            (app.map Prod.fst ++ ["login_time_y"])),
         [("username", PyVal.str un) ::
            (dev ++ ("login_time_x", PyVal.str (lastSegOfKey key)) ::
              (app ++ [("login_time_y", PyVal.str (lastSegOfKey key))]))]⟩ := by
    rw [hm2]
    simp only [List.filter_append, List.map_append, happKeyFilterU, happRowFilterU]
    simp [lux]
    constructor
    · have e1 : List.map ((fun c => if c = "login_time" then c ++ "_x" else c) ∘ Prod.fst) dev =
          List.map Prod.fst dev :=
        List.map_congr_left (fun p hp => by
          have hne : p.1 ≠ "login_time" := key_ne_of_not_mem hdev2 p hp
          simp [Function.comp, hne])
      have e2 : List.map ((fun c => if c = "login_time" then c ++ "_y" else c) ∘ Prod.fst) app =
          List.map Prod.fst app :=
        List.map_congr_left (fun p hp => by
          have hne : p.1 ≠ "login_time" := key_ne_of_not_mem happ2 p hp
          simp [Function.comp, hne])
      rw [e1, e2]
    · have e3 : List.map (fun p =>
          ((if p.1 = "login_time" then p.1 ++ "_x" else p.1), p.2)) dev =
          List.map (fun p => (p.1, p.2)) dev :=
        List.map_congr_left (fun p hp => by
          have hne : p.1 ≠ "login_time" := key_ne_of_not_mem hdev2 p hp
          simp [hne])
      have e4 : List.map (fun p =>
          ((if p.1 = "login_time" then p.1 ++ "_y" else p.1), p.2)) app =
          List.map (fun p => (p.1, p.2)) app :=
        List.map_congr_left (fun p hp => by
          have hne : p.1 ≠ "login_time" := key_ne_of_not_mem happ2 p hp
          simp [hne])
      rw [e3, e4]
      simp
  simp only [parse_device_info, h1, h2, h4, hm1', h5, h6, h8, hm2', bind, Except.bind]

/-- Witness for claim C8 corrected, at the scenario A record. -/
theorem parse_device_info_amended_witness :
    parse_device_info recA "alice-A" =
      Except.ok
        ⟨"username" :: (List.map Prod.fst [("model", PyVal.str "X")] ++ "login_time_x" ::
            (List.map Prod.fst [("version", PyVal.str "1.0")] ++ ["login_time_y"])),
         [("username", PyVal.str "alice") ::
            ([("model", PyVal.str "X")] ++ ("login_time_x", PyVal.str (lastSegOfKey "alice-A")) ::
              ([("version", PyVal.str "1.0")] ++
                [("login_time_y", PyVal.str (lastSegOfKey "alice-A"))]))]⟩ :=
  parse_device_info_amended "alice" "alice-A" [("model", PyVal.str "X")]
    [("version", PyVal.str "1.0")] recA.pings recA.answers (by decide) (by decide)
    (by decide) (by decide) (by decide) (by decide) (by decide)
